import Mathlib

/-!
Verification of the PontoNews feed-ingestion pipeline.

The repository contains two variants of the builder script:
* `scripts/build_news.mjs` — the regex-based variant (namespace `RegexVariant` below);
* `pontoview-news-standalone-definitivo/scripts/build_news.mjs` — the
  rss-parser based variant (namespace `Definitivo` below).

JavaScript strings are modelled as `List Char` (`Str`); machine integers are
`Nat` with explicit `% 2 ^ 32` where 32-bit overflow matters.  JavaScript
builtins used by the scripts (`String.prototype.trim`, `toLowerCase`,
`includes`, `startsWith`, `Array.prototype.sort`, `node:crypto` SHA-1,
`Date` parsing, `path.extname`) are given executable models whose doc
comments state the fragment they cover.
-/

/-- JavaScript strings, modelled as lists of characters. -/
abbrev Str := List Char

/-- Convenience coercion from Lean string literals. -/
def str (s : String) : Str := s.toList

/-- JavaScript `a || b` on strings: the empty string is the only falsy string. -/
def jsOr (a b : Str) : Str := if a = [] then b else a

/-- Whitespace test covering the characters that occur in feed text here
(the ASCII fragment of JavaScript's whitespace class). -/
def isWs (c : Char) : Bool := c = ' ' || c = '\t' || c = '\n' || c = '\r'

/-- Models `String.prototype.trimStart`. -/
def trimStart (s : Str) : Str := s.dropWhile isWs

/-- Models `String.prototype.trimEnd`. -/
def trimEnd (s : Str) : Str := (s.reverse.dropWhile isWs).reverse

/-- Models `String.prototype.trim`. -/
def trim (s : Str) : Str := trimEnd (trimStart s)

/-- Lower-cases one character on the Basic Latin and Latin-1 Supplement
repertoire that covers the Portuguese feed text and keywords here: the ASCII
capitals and the accented capitals À..Þ (excluding the multiplication sign)
are lowered by adding 32, matching the Unicode simple case mapping on that
range; every other character is unchanged. -/
def jsLowerChar (c : Char) : Char :=
  if ('A' ≤ c && c ≤ 'Z') || ('À' ≤ c && c ≤ 'Þ' && c ≠ '×') then Char.ofNat (c.toNat + 32)
  else c

/-- Models `String.prototype.toLowerCase` on the repertoire described at
`jsLowerChar`. -/
def jsToLower (s : Str) : Str := s.map jsLowerChar

/-- Models `String.prototype.includes`: substring containment. -/
def includesStr : Str → Str → Bool
  | [], needle => needle.isPrefixOf []
  | c :: t, needle => needle.isPrefixOf (c :: t) || includesStr t needle

/-- Decimal representation of a natural number, as `String(n)` produces. -/
def natToStr (n : Nat) : Str := (Nat.repr n).toList

/-- UTF-16 code units of a character; `charCodeAt` iterates these. -/
def utf16Units (c : Char) : List Nat :=
  let n := c.toNat
  if n < 65536 then [n]
  else [55296 + (n - 65536) / 1024, 56320 + (n - 65536) % 1024]

/-- UTF-16 code units of a string. -/
def utf16Codes (s : Str) : List Nat := s.foldr (fun c acc => utf16Units c ++ acc) []

/-- UTF-8 bytes of a character (`node:crypto` hashes the UTF-8 encoding). -/
def utf8Bytes (c : Char) : List Nat :=
  let n := c.toNat
  if n < 128 then [n]
  else if n < 2048 then [192 + n / 64, 128 + n % 64]
  else if n < 65536 then [224 + n / 4096, 128 + n / 64 % 64, 128 + n % 64]
  else [240 + n / 262144, 128 + n / 4096 % 64, 128 + n / 64 % 64, 128 + n % 64]

/-- UTF-8 bytes of a string. -/
def strUtf8 (s : Str) : List Nat := s.foldr (fun c acc => utf8Bytes c ++ acc) []

/-- The 32-bit modulus. -/
def w32 : Nat := 4294967296

/-- Left rotation of a 32-bit word. -/
def rotl (k x : Nat) : Nat := (x * 2 ^ k) % w32 + x / 2 ^ (32 - k)

/-- Bitwise complement of a 32-bit word. -/
def not32 (x : Nat) : Nat := w32 - 1 - x

/-- SHA-1 round function. -/
def sha1F (t b c d : Nat) : Nat :=
  if t < 20 then (b &&& c) ||| (not32 b &&& d)
  else if t < 40 then b ^^^ c ^^^ d
  else if t < 60 then (b &&& c) ||| (b &&& d) ||| (c &&& d)
  else b ^^^ c ^^^ d

/-- SHA-1 round constants. -/
def sha1K (t : Nat) : Nat :=
  if t < 20 then 1518500249
  else if t < 40 then 1859775393
  else if t < 60 then 2400959708
  else 3395469782

/-- Big-endian byte expansion of a number into `k` bytes. -/
def beBytes : Nat → Nat → List Nat
  | 0, _ => []
  | k + 1, n => beBytes k (n / 256) ++ [n % 256]

/-- SHA-1 message padding: `0x80`, zeros to 56 mod 64, 64-bit bit length. -/
def sha1Pad (msg : List Nat) : List Nat :=
  msg ++ [128] ++ List.replicate ((119 - msg.length % 64) % 64) 0 ++ beBytes 8 (msg.length * 8)

/-- Group bytes into big-endian 32-bit words. -/
def toWords : List Nat → List Nat
  | a :: b :: c :: d :: rest => (((a * 256 + b) * 256 + c) * 256 + d) :: toWords rest
  | _ => []

/-- Split a word list into chunks of 16 (fuel-driven so the kernel can
evaluate it; the fuel is the list length, which always suffices). -/
def chunks16Aux : Nat → List Nat → List (List Nat)
  | 0, _ => []
  | n + 1, ws => if ws = [] then [] else ws.take 16 :: chunks16Aux n (ws.drop 16)

/-- Split a word list into chunks of 16. -/
def chunks16 (ws : List Nat) : List (List Nat) := chunks16Aux ws.length ws

/-- SHA-1 message schedule: extend 16 words to 80. -/
def sha1Ws (block : List Nat) : List Nat :=
  (List.range 64).foldl
    (fun ws _ =>
      ws ++ [rotl 1 ((ws.getD (ws.length - 3) 0) ^^^ (ws.getD (ws.length - 8) 0) ^^^
        (ws.getD (ws.length - 14) 0) ^^^ (ws.getD (ws.length - 16) 0))])
    block

/-- SHA-1 working state: five 32-bit words. -/
abbrev Sha1St := Nat × Nat × Nat × Nat × Nat

/-- One SHA-1 round. -/
def sha1Round (st : Sha1St) (tw : Nat × Nat) : Sha1St :=
  let a := st.1; let b := st.2.1; let c := st.2.2.1; let d := st.2.2.2.1; let e := st.2.2.2.2
  let temp := (rotl 5 a + sha1F tw.1 b c d + e + sha1K tw.1 + tw.2) % w32
  (temp, a, rotl 30 b, c, d)

/-- Process one 512-bit block. -/
def sha1Block (h : Sha1St) (block : List Nat) : Sha1St :=
  let st := ((List.range 80).zip (sha1Ws block)).foldl sha1Round h
  ((h.1 + st.1) % w32, (h.2.1 + st.2.1) % w32, (h.2.2.1 + st.2.2.1) % w32,
   (h.2.2.2.1 + st.2.2.2.1) % w32, (h.2.2.2.2 + st.2.2.2.2) % w32)

/-- SHA-1 digest of a byte sequence, as five 32-bit words. -/
def sha1Words (msg : List Nat) : List Nat :=
  let f := (chunks16 (toWords (sha1Pad msg))).foldl sha1Block
    (1732584193, 4023233417, 2562383102, 271733878, 3285377520)
  [f.1, f.2.1, f.2.2.1, f.2.2.2.1, f.2.2.2.2]

/-- Lower-case hex digit. -/
def hexDigit (n : Nat) : Char := if n < 10 then Char.ofNat (48 + n) else Char.ofNat (87 + n)

/-- Eight-hex-digit rendering of a 32-bit word. -/
def hex8 (n : Nat) : Str := (List.range 8).map (fun i => hexDigit (n / 16 ^ (7 - i) % 16))

/-- Models `crypto.createHash("sha1").update(s).digest("hex")`. -/
def sha1Hex (s : Str) : Str := (sha1Words (strUtf8 s)).foldr (fun wd acc => hex8 wd ++ acc) []

/-- Digit test. -/
def isDigit (c : Char) : Bool := '0' ≤ c && c ≤ '9'

/-- Numeric value of a digit string (the code's `parseInt` on matched digits). -/
def digitsToNat (ds : Str) : Nat := ds.foldl (fun a c => a * 10 + (c.toNat - 48)) 0

/-- Take up to `k` leading digits greedily, returning them and the rest. -/
def takeDigits (k : Nat) (s : Str) : Str × Str :=
  let ds := (s.takeWhile isDigit).take k
  (ds, s.drop ds.length)

/-- A calendar instant as the scripts build them (UTC; milliseconds are always
zero for the dates parsed here). -/
structure Timestamp where
  year : Nat
  month : Nat
  day : Nat
  hour : Nat
  minute : Nat
  second : Nat
deriving DecidableEq

/-- Two-digit zero-padded rendering. -/
def pad2 (n : Nat) : Str := if n < 10 then '0' :: natToStr n else natToStr n

/-- Models `Date.prototype.toISOString` for the in-range instants produced by
the scripts (four-digit years, milliseconds zero). -/
def toISOString (t : Timestamp) : Str :=
  natToStr t.year ++ '-' :: pad2 t.month ++ '-' :: pad2 t.day ++ 'T' :: pad2 t.hour ++
    ':' :: pad2 t.minute ++ ':' :: pad2 t.second ++ str ".000Z"

/-- Models the ISO-8601 half of `new Date(string)` on the forms that flow
through this pipeline: `YYYY-MM-DD` (midnight UTC) and the `toISOString`
shape `YYYY-MM-DDTHH:MM:SS.mmmZ`.  The millisecond digits are parsed but not
stored, since every instant these scripts construct has zero milliseconds. -/
def jsDateParseIso (s : Str) : Option Timestamp :=
  let (y, r1) := takeDigits 4 s
  if y.length ≠ 4 then none else
  match r1 with
  | '-' :: r2 =>
    let (mo, r3) := takeDigits 2 r2
    if mo.length ≠ 2 then none else
    match r3 with
    | '-' :: r4 =>
      let (d, r5) := takeDigits 2 r4
      if d.length ≠ 2 then none else
      let mm := digitsToNat mo
      let dd := digitsToNat d
      if mm = 0 || 12 < mm || dd = 0 || 31 < dd then none else
      match r5 with
      | [] => some ⟨digitsToNat y, mm, dd, 0, 0, 0⟩
      | 'T' :: r6 =>
        let (hh, r7) := takeDigits 2 r6
        if hh.length ≠ 2 then none else
        match r7 with
        | ':' :: r8 =>
          let (mi, r9) := takeDigits 2 r8
          if mi.length ≠ 2 then none else
          match r9 with
          | ':' :: r10 =>
            let (ss, r11) := takeDigits 2 r10
            if ss.length ≠ 2 then none else
            match r11 with
            | '.' :: r12 =>
              let (ms, r13) := takeDigits 3 r12
              if ms.length ≠ 3 then none else
              match r13 with
              | ['Z'] =>
                if 23 < digitsToNat hh || 59 < digitsToNat mi || 59 < digitsToNat ss then none
                else some ⟨digitsToNat y, mm, dd, digitsToNat hh, digitsToNat mi, digitsToNat ss⟩
              | _ => none
            | _ => none
          | _ => none
        | _ => none
      | _ => none
    | _ => none
  | _ => none

/-- Models the V8 legacy (non-ISO) `new Date(string)` parser on the fragment
these scripts exercise in the theorems below: the US-style numeric form
`month/day/year` with an optional `hour:minute` time, read in month-day
order and (as on the UTC-configured CI runners) interpreted as UTC.
Strings outside this fragment — in particular Portuguese month-name dates
such as `3 de dezembro de 2025`, which V8 rejects — yield `none`. -/
def jsDateParseSlash (s : Str) : Option Timestamp :=
  let (m, r1) := takeDigits 2 s
  if m = [] then none else
  match r1 with
  | '/' :: r2 =>
    let (d, r3) := takeDigits 2 r2
    if d = [] then none else
    match r3 with
    | '/' :: r4 =>
      let (y, r5) := takeDigits 4 r4
      if y.length < 3 then none else
      let mm := digitsToNat m
      let dd := digitsToNat d
      if mm = 0 || 12 < mm || dd = 0 || 31 < dd then none else
      match r5 with
      | [] => some ⟨digitsToNat y, mm, dd, 0, 0, 0⟩
      | ' ' :: r6 =>
        let (hh, r7) := takeDigits 2 r6
        if hh = [] then none else
        match r7 with
        | ':' :: r8 =>
          let (mi, r9) := takeDigits 2 r8
          if mi.length ≠ 2 || r9 ≠ [] || 23 < digitsToNat hh || 59 < digitsToNat mi then none
          else some ⟨digitsToNat y, mm, dd, digitsToNat hh, digitsToNat mi, 0⟩
        | _ => none
      | _ => none
    | _ => none
  | _ => none

/-- Models `new Date(string)` as V8 applies it: the ISO-8601 parse is tried
first, then the legacy month/day form. -/
def jsDateParse (s : Str) : Option Timestamp :=
  match jsDateParseIso s with
  | some t => some t
  | none => jsDateParseSlash s

namespace RegexVariant

/-- The fixed keyword blocklist (src/scripts/build_news.mjs lines 27-32). -/
def BLOCKLIST : List Str :=
  [str "morte", str "morto", str "assassin", str "homic", str "crime", str "violên",
   str "tirote", str "trág", str "trag", str "estupro", str "roubo", str "furto",
   str "sequestro", str "corpo", str "política", str "eleição", str "partido",
   str "corrup", str "escând", str "acidente grave", str "desastre", str "catástro",
   str "explos"]

/-- Models isBlocked (lines 70-73): case-insensitive substring match of the
blocklist against title and summary joined by a space. -/
def isBlocked (title summary : Str) : Bool :=
  let hay := jsToLower (title ++ ' ' :: summary)
  BLOCKLIST.any (fun w => includesStr hay w)

/-- Models normalizeImageUrl (lines 61-67). -/
def normalizeImageUrl (u : Str) : Str :=
  let url := trim u
  if url = [] then []
  else if (str "data:").isPrefixOf url then []
  else if (str "http://").isPrefixOf url then str "https://" ++ url.drop 7
  else url

/-- Case-insensitive literal match of a pattern against the front of a string,
returning the rest on success (models a case-folded regex literal). -/
def matchCI : Str → Str → Option Str
  | [], s => some s
  | _ :: _, [] => none
  | p :: ps, c :: cs => if p.toLower == c.toLower then matchCI ps cs else none

/-- Does the first cleanTitle regex, whitespace then a dash then optional
whitespace then the trimmed source name then trailing whitespace to the end
(flag i), match starting exactly at this position? -/
def dashSuffixAt (source s : Str) : Bool :=
  let w := s.takeWhile isWs
  if w = [] then false
  else
    match s.drop w.length with
    | d :: r2 =>
      (d = '-' || d = '–' || d = '—') &&
        (match matchCI source (r2.dropWhile isWs) with
         | some r4 => r4.all isWs
         | none => false)
    | [] => false

/-- Removes the leftmost match of the dash-source suffix, if any
(models `test` plus `replace` with the first cleanTitle regex). -/
def stripDashSuffix (source : Str) : Str → Option Str
  | [] => none
  | c :: rest =>
    if dashSuffixAt source (c :: rest) then some []
    else (stripDashSuffix source rest).map (c :: ·)

/-- Letter s in either case, as matched by the doubled-backslash regex under
flag i. -/
def esses (c : Char) : Bool := c = 's' || c = 'S'

/-- Tail of the second cleanTitle regex: a literal backslash then letters s up
to the end of the string. -/
def brokenTail : Str → Bool
  | '\\' :: r => r.all esses
  | _ => false

/-- Existence of a split: between 2 and 40 characters other than a pipe,
followed by the backslash tail; `n` counts characters consumed so far. -/
def scanMidTail : Nat → Str → Bool
  | _, [] => false
  | n, c :: r =>
    (2 ≤ n && brokenTail (c :: r)) || (c ≠ '|' && n < 40 && scanMidTail (n + 1) r)

/-- Does the second cleanTitle regex match starting at this position?  The
source wrote it with doubled backslashes, so its whitespace tokens match a
literal backslash followed by letters s; it practically never fires on feed
titles, which contain no backslash. -/
def matchBrokenAt : Str → Bool
  | '\\' :: r =>
    let ss := r.takeWhile esses
    if ss = [] then false
    else
      match r.drop ss.length with
      | '|' :: '\\' :: r2 =>
        let ss2 := r2.takeWhile esses
        ss2 ≠ [] && scanMidTail 0 (r2.drop ss2.length)
      | _ => false
  | _ => false

/-- Removes the leftmost match of the second cleanTitle regex, if any. -/
def stripPipeSuffix : Str → Str
  | [] => []
  | c :: rest => if matchBrokenAt (c :: rest) then [] else c :: stripPipeSuffix rest

/-- Models cleanTitle (lines 50-59). -/
def cleanTitle (title sourceName : Str) : Str :=
  let t := trim title
  if t = [] then []
  else if sourceName ≠ [] then
    match stripDashSuffix (trim sourceName) t with
    | some t2 => trim t2
    | none => trim (stripPipeSuffix t)
  else trim (stripPipeSuffix t)

/-- Does the first tryParsePtBrDate regex, digits then a slash or dash then
digits then a 2-to-4-digit year with an optional non-digit-separated
hour:minute, match starting exactly at this position? -/
def matchSlashAt (s : Str) : Option (Nat × Nat × Nat × Nat × Nat) :=
  let (d1, r1) := takeDigits 2 s
  if d1 = [] then none else
  match r1 with
  | c1 :: r2 =>
    if c1 = '/' || c1 = '-' then
      let (d2, r3) := takeDigits 2 r2
      if d2 = [] then none else
      match r3 with
      | c2 :: r4 =>
        if c2 = '/' || c2 = '-' then
          let (d3, r5) := takeDigits 4 r4
          if d3.length < 2 then none else
          let nd := r5.takeWhile (fun c => !isDigit c)
          let r6 := r5.drop nd.length
          let time :=
            if nd = [] then none else
            let (h, r7) := takeDigits 2 r6
            if h = [] then none else
            match r7 with
            | ':' :: r8 =>
              let (mi, _) := takeDigits 2 r8
              if mi.length = 2 then some (digitsToNat h, digitsToNat mi) else none
            | _ => none
          match time with
          | some (h, mi) => some (digitsToNat d1, digitsToNat d2, digitsToNat d3, h, mi)
          | none => some (digitsToNat d1, digitsToNat d2, digitsToNat d3, 0, 0)
        else none
      | [] => none
    else none
  | [] => none

/-- Leftmost match of the slash-date pattern anywhere in the string. -/
def scanSlash : Str → Option (Nat × Nat × Nat × Nat × Nat)
  | [] => none
  | c :: rest =>
    match matchSlashAt (c :: rest) with
    | some v => some v
    | none => scanSlash rest

/-- A letter the month-name character class `[a-zç]` accepts. -/
def ptLetter (c : Char) : Bool := ('a' ≤ c && c ≤ 'z') || c = 'ç'

/-- Does the month-name regex, digits then `de` then a month word then `de`
then a four-digit year, all whitespace-separated, match starting exactly at
this position (the string is already lower-cased)? -/
def matchMonthNameAt (s : Str) : Option (Nat × Str × Nat) :=
  let (d, r1) := takeDigits 2 s
  if d = [] then none else
  let w1 := r1.takeWhile isWs
  if w1 = [] then none else
  match r1.drop w1.length with
  | 'd' :: 'e' :: r2 =>
    let w2 := r2.takeWhile isWs
    if w2 = [] then none else
    let r3 := r2.drop w2.length
    let mon := r3.takeWhile ptLetter
    if mon = [] then none else
    let r4 := r3.drop mon.length
    let w3 := r4.takeWhile isWs
    if w3 = [] then none else
    match r4.drop w3.length with
    | 'd' :: 'e' :: r5 =>
      let w4 := r5.takeWhile isWs
      if w4 = [] then none else
      let (y, _) := takeDigits 4 (r5.drop w4.length)
      if y.length = 4 then some (digitsToNat d, mon, digitsToNat y) else none
    | _ => none
  | _ => none

/-- Leftmost match of the month-name pattern anywhere in the string. -/
def scanMonthName : Str → Option (Nat × Str × Nat)
  | [] => none
  | c :: rest =>
    match matchMonthNameAt (c :: rest) with
    | some v => some v
    | none => scanMonthName rest

/-- The month-name table of tryParsePtBrDate (0-based as in the source). -/
def ptMonthIdx (w : Str) : Option Nat :=
  if w = str "janeiro" then some 0
  else if w = str "fevereiro" then some 1
  else if w = str "março" then some 2
  else if w = str "marco" then some 2
  else if w = str "abril" then some 3
  else if w = str "maio" then some 4
  else if w = str "junho" then some 5
  else if w = str "julho" then some 6
  else if w = str "agosto" then some 7
  else if w = str "setembro" then some 8
  else if w = str "outubro" then some 9
  else if w = str "novembro" then some 10
  else if w = str "dezembro" then some 11
  else none

/-- Models tryParsePtBrDate (lines 75-106): the slash form day/month/year with
optional time, constructed via Date.UTC, else the Portuguese month-name form
at noon UTC.  Date.UTC's overflow normalization is not modelled; the inputs
evaluated below are in range. -/
def tryParsePtBrDate (s : Str) : Option Timestamp :=
  let s0 := trim s
  match scanSlash s0 with
  | some (dd, mm, yyyy, hh, mi) =>
    let y := if yyyy < 100 then 2000 + yyyy else yyyy
    some ⟨y, mm, dd, hh, mi, 0⟩
  | none =>
    match scanMonthName (jsToLower s0) with
    | some (dd, mon, yyyy) =>
      match ptMonthIdx mon with
      | some mIdx => some ⟨yyyy, mIdx + 1, dd, 12, 0, 0⟩
      | none => none
    | none => none

/-- Models normalizeDate (lines 108-130): standard Date parsing first, the
pt-BR patterns only when that fails, then the year plausibility clamp.
`currentYear` stands for `new Date().getUTCFullYear()`. -/
def normalizeDate (currentYear : Nat) (value : Str) : Str :=
  let raw := trim value
  if raw = [] then []
  else
    let d :=
      match jsDateParse raw with
      | some d => some d
      | none => tryParsePtBrDate raw
    match d with
    | none => []
    | some d => if d.year < 2000 || currentYear + 2 < d.year then [] else toISOString d

/-- Models stableId (lines 138-143): 32-bit rolling hash, base 31, over the
UTF-16 code units of the input. -/
def stableId (input : Str) : Str :=
  natToStr ((utf16Codes input).foldl (fun h c => (h * 31 + c) % w32) 0)

/-- The id assembled at line 366: `name:stableId(url || title)`. -/
def mkItemId (name url title : Str) : Str := name ++ ':' :: stableId (jsOr url title)

/-- Models the summary truncation in parseRss (line 266). -/
def truncSummary (summaryFull : Str) : Str :=
  if 220 < summaryFull.length then trimEnd (summaryFull.take 220) ++ ['…'] else summaryFull

/-- A parsed feed entry as parseRss emits it. -/
structure RawEntry where
  title : Str
  url : Str
  summary : Str
  publishedAt : Str
  image : Str
deriving DecidableEq

/-- The per-source configuration fields read when assembling an item. -/
structure SourceCfg where
  logo : Str
  scope : Str
  city : Str
deriving DecidableEq

/-- The value of an enrichFromArticle call (its publishedAt field is already
normalized inside that function). -/
structure EnrichResult where
  finalUrl : Str
  ogImage : Str
  publishedAt : Str
deriving DecidableEq

/-- The item shape pushed by collectFromSource (lines 368-379). -/
structure NormalizedItem where
  id : Str
  title : Str
  summary : Str
  source : Str
  logo : Str
  scope : Str
  city : Str
  publishedAt : Str
  url : Str
  image : Str
deriving DecidableEq

/-- The object pushed at lines 368-379, from the post-enrichment values. -/
def assembleItem (currentYear : Nat) (name : Str) (src : SourceCfg)
    (title summary url image publishedAt : Str) : NormalizedItem :=
  { id := mkItemId name url title
    title := title
    summary := summary
    source := name
    logo := src.logo
    scope := src.scope
    city := src.city
    publishedAt := normalizeDate currentYear publishedAt
    url := url
    image := normalizeImageUrl image }

/-- Models the per-entry body of the collectFromSource loop (lines 348-380)
under the evident intent that normalizeDate is a module-level helper.  In the
source as staged, the brace opened by isBlocked at line 70 is closed only at
line 136, which nests tryParsePtBrDate, normalizeDate and int inside
isBlocked's function scope, so the module-scope reference at line 356 throws;
`processEntryActual` below models that actual behavior.  The second component
records whether enrichFromArticle was invoked; `enrich` abstracts that
network call. -/
def processEntry (currentYear : Nat) (enrich : Str → EnrichResult) (allowEnrich : Bool)
    (name : Str) (src : SourceCfg) (e : RawEntry) : Option NormalizedItem × Bool :=
  let title := cleanTitle e.title name
  if title = [] then (none, false)
  else if isBlocked title e.summary then (none, false)
  else
    let url := trim e.url
    let image := trim e.image
    let publishedAt := normalizeDate currentYear (trim e.publishedAt)
    if (image = [] || publishedAt = []) && allowEnrich && url ≠ [] then
      let en := enrich url
      (some (assembleItem currentYear name src title e.summary (jsOr en.finalUrl url)
        (if image = [] then en.ogImage else image)
        (if publishedAt = [] then en.publishedAt else publishedAt)), true)
    else
      (some (assembleItem currentYear name src title e.summary url image publishedAt), false)

/-- The outcome of collectFromSource for one source: a returned
`{ items, error }` pair, or a thrown exception message. -/
inductive CollectOutcome where
  | result : List NormalizedItem → Str → CollectOutcome
  | thrown : Str → CollectOutcome
deriving DecidableEq

/-- The three accumulators of the main source loop. -/
structure RunAcc where
  allItems : List NormalizedItem
  perSource : List (Str × Nat)
  failures : List (Str × Str)
deriving DecidableEq

/-- One iteration of the main source loop (lines 409-419). -/
def sourceStep (acc : RunAcc) (so : Str × CollectOutcome) : RunAcc :=
  match so.2 with
  | .result items error =>
    { allItems := acc.allItems ++ items
      perSource := acc.perSource ++ [(so.1, items.length)]
      failures := acc.failures ++ (if error = [] then [] else [(so.1, error)]) }
  | .thrown msg =>
    { acc with failures := acc.failures ++ [(so.1, msg)] }

/-- Models the main source loop over the configured sources, each paired with
the outcome of its collectFromSource call. -/
def runSources (l : List (Str × CollectOutcome)) : RunAcc :=
  l.foldl sourceStep ⟨[], [], []⟩

end RegexVariant

namespace Definitivo

/-- Models stableId of the definitivo variant (lines 193-195):
`source + ":" + sha1((url||"") + "|" + (title||""))`. -/
def stableId (source title url : Str) : Str :=
  source ++ ':' :: sha1Hex (url ++ '|' :: title)

/-- Models normalizeDate of the definitivo variant (lines 184-191): the
standard Date parse only — no Portuguese patterns and no year clamp. -/
def normalizeDate (s : Str) : Str :=
  if s = [] then []
  else
    match jsDateParse s with
    | none => []
    | some d => toISOString d

/-- Models the summary construction of the definitivo variant (lines 233 and
257): slice to 220 characters, then append an ellipsis whenever the sliced
length reaches 220. -/
def mkSummary (stripped : Str) : Str :=
  let summary := stripped.take 220
  if summary = [] then []
  else summary ++ (if 220 ≤ summary.length then ['…'] else [])

/-- The item shape pushed by the definitivo main loop (lines 254-263). -/
structure NItem where
  id : Str
  title : Str
  summary : Str
  source : Str
  scope : Str
  publishedAt : Str
  url : Str
  image : Str
deriving DecidableEq

/-- The sort relation of line 277, `(b.publishedAt||"").localeCompare(a.publishedAt||"")`:
`a` may stay before `b` exactly when `b`'s publish instant is at most `a`'s.
On the `toISOString` outputs and the empty string that populate this field,
`localeCompare` agrees with plain lexicographic comparison, which is the
order on `List Char` used here. -/
def byDateDesc (a b : NItem) : Prop := b.publishedAt ≤ a.publishedAt

instance : DecidableRel byDateDesc := fun a b =>
  inferInstanceAs (Decidable (b.publishedAt ≤ a.publishedAt))

instance : IsTotal NItem byDateDesc := ⟨fun a b => le_total b.publishedAt a.publishedAt⟩

instance : IsTrans NItem byDateDesc :=
  ⟨fun _ _ _ h1 h2 => le_trans h2 h1⟩

/-- Models `all.sort(...)` at line 277.  `Array.prototype.sort` is a stable
sort (ES2019), so it is modelled by the stable `insertionSort`. -/
def sortItems (l : List NItem) : List NItem := l.insertionSort byDateDesc

/-- The items field of the written manifest (line 289): the sorted list capped
at 80. -/
def manifestItems (l : List NItem) : List NItem := (sortItems l).take 80

/-- Models `String.prototype.replace` with a plain-string pattern and empty
replacement: the first occurrence of `pat` is removed. -/
def replaceFirst (pat : Str) : Str → Str
  | [] => []
  | c :: rest =>
    if pat.isPrefixOf (c :: rest) then (c :: rest).drop pat.length
    else c :: replaceFirst pat rest

/-- The retention set of the sweep (line 280): the image file names referenced
by the full collected list `all`, with the directory prefix removed and empty
entries filtered out. -/
def usedKeys (all : List NItem) : List Str :=
  (all.map (fun x => replaceFirst (str "./data/img/") x.image)).filter (fun s => s ≠ [])

/-- Models the sweep loop (lines 279-285): every file in the image directory
whose name is not in the retention set is unlinked; the survivors are
returned. -/
def sweep (all : List NItem) (files : List Str) : List Str :=
  files.filter (fun f => f ∈ usedKeys all)

/-- Models guessExtFromContentType (lines 82-90). -/
def guessExtFromContentType (ct : Str) : Str :=
  if ct = [] then []
  else
    let c := jsToLower ct
    if includesStr c (str "image/jpeg") then str ".jpg"
    else if includesStr c (str "image/png") then str ".png"
    else if includesStr c (str "image/webp") then str ".webp"
    else if includesStr c (str "image/gif") then str ".gif"
    else []

/-- Models node's `path.extname` on a URL pathname: the suffix of the last
path segment from its last dot, or empty when the segment has no dot or only
a leading one. -/
def extname (p : Str) : Str :=
  let base := (p.reverse.takeWhile (fun c => c ≠ '/')).reverse
  let rev := base.reverse
  let after := rev.takeWhile (fun c => c ≠ '.')
  match rev.drop after.length with
  | '.' :: _ :: _ => '.' :: after.reverse
  | _ => []

/-- The response of the image fetch at line 104, as downloadImage reads it:
status flag, content-type header (empty when absent), the pathname of the
final response URL, and the body size in bytes. -/
structure ImgResponse where
  ok : Bool
  contentType : Str
  finalPathname : Str
  size : Nat
deriving DecidableEq

/-- The filesystem and network state downloadImage touches: the file names in
the image directory and a count of network downloads performed. -/
structure CacheState where
  files : List Str
  downloads : Nat
deriving DecidableEq

/-- Models downloadImage (lines 92-119).  `net` abstracts the network: the
response a fetch of the given URL returns.  Returns the local path (empty on
failure) and the updated state. -/
def downloadImage (net : Str → ImgResponse) (url : Str) (st : CacheState) :
    Str × CacheState :=
  if url = [] then ([], st)
  else
    let key := sha1Hex url
    match st.files.find? (fun f => (key ++ ['.']).isPrefixOf f) with
    | some existing => (str "./data/img/" ++ existing, st)
    | none =>
      let res := net url
      let st1 : CacheState := ⟨st.files, st.downloads + 1⟩
      if !res.ok then ([], st1)
      else
        let ext := jsOr (jsOr (guessExtFromContentType res.contentType)
          (extname res.finalPathname)) (str ".jpg")
        let file := key ++ ext.take 5
        if 1500000 < res.size then ([], st1)
        else (str "./data/img/" ++ file, ⟨st1.files ++ [file], st1.downloads⟩)

end Definitivo

namespace RegexVariant

/-- The const bindings of main already initialized when control reaches the
missing-config branch (lines 390-399): only `sourcesPath` from line 386.
`outPath` is declared by `const` only at line 402, after the branch. -/
def declaredInMissingConfigBranch : List Str := [str "sourcesPath"]

/-- Result of evaluating a fragment of JavaScript: a value, or a thrown
exception message. -/
inductive JsResult (α : Type) where
  | ok : α → JsResult α
  | thrown : Str → JsResult α
deriving DecidableEq

/-- Models a JavaScript identifier reference under temporal-dead-zone
semantics: referencing a `const` before its declaration throws a
ReferenceError. -/
def refVar (declared : List Str) (x : Str) : JsResult Str :=
  if x ∈ declared then JsResult.ok x
  else JsResult.thrown (str "ReferenceError: Cannot access " ++ x ++ str " before initialization")

/-- Models the missing-config branch (lines 390-399): line 396 references
`outPath` to create the output directory and line 397 references it again to
write the empty manifest, then `process.exit(0)` would report success.  The
value is the items list written on success. -/
def missingConfigBranch : JsResult (List NormalizedItem) :=
  match refVar declaredInMissingConfigBranch (str "outPath") with
  | JsResult.thrown e => JsResult.thrown e
  | JsResult.ok _ =>
    match refVar declaredInMissingConfigBranch (str "outPath") with
    | JsResult.thrown e => JsResult.thrown e
    | JsResult.ok _ => JsResult.ok []

/-- The process exit status on a missing config file: if the branch throws,
main's promise rejects and the top-level catch (lines 448-451) exits 1. -/
def missingConfigExitCode : Nat :=
  match missingConfigBranch with
  | JsResult.ok _ => 0
  | JsResult.thrown _ => 1

/-- Models the per-entry body of collectFromSource (lines 348-380) as the
staged source actually scopes it: the brace opened by isBlocked at line 70 is
closed only at line 136, so tryParsePtBrDate, normalizeDate and int are local
to isBlocked and undefined at module scope.  An entry with an empty cleaned
title, or one that matches the blocklist, is skipped by the `continue`
statements at lines 351-352 before any of the broken calls; every entry that
passes the filter then reaches `normalizeDate(...)` at line 356, which throws
a ReferenceError, so no item is ever emitted and enrichFromArticle is never
invoked. -/
def processEntryActual (name : Str) (e : RawEntry) :
    JsResult (Option NormalizedItem × Bool) :=
  let title := cleanTitle e.title name
  if title = [] then JsResult.ok (none, false)
  else if isBlocked title e.summary then JsResult.ok (none, false)
  else JsResult.thrown (str "ReferenceError: normalizeDate is not defined")

end RegexVariant

/-! Concrete inputs used by counterexamples and witnesses. -/

/-- A network on which every image fetch fails. -/
def c3FailNet : Str → Definitivo.ImgResponse := fun _ => ⟨false, [], [], 0⟩

/-- A network on which every image fetch succeeds with a small PNG. -/
def c3OkNet : Str → Definitivo.ImgResponse := fun _ => ⟨true, str "image/png", [], 100⟩

/-- An item referencing cached image `a.jpg`. -/
def c4ItemA : Definitivo.NItem := ⟨str "idA", str "tA", [], str "S", str "LOCAL",
  str "2025-01-01T00:00:00.000Z", str "uA", str "./data/img/a.jpg"⟩

/-- An item referencing cached image `b.jpg`. -/
def c4ItemB : Definitivo.NItem := ⟨str "idB", str "tB", [], str "S", str "LOCAL",
  str "2025-01-01T00:00:00.000Z", str "uB", str "./data/img/b.jpg"⟩

/-- A collected list of 81 items: the 81st is the only one referencing `b.jpg`,
so it falls outside the 80-item cap. -/
def c4All : List Definitivo.NItem := List.replicate 80 c4ItemA ++ [c4ItemB]

/-- An item whose image is referenced by a singleton manifest. -/
def c4ItemW : Definitivo.NItem := ⟨str "idW", str "tW", [], str "S", str "LOCAL",
  str "2025-01-01T00:00:00.000Z", str "uW", str "./data/img/x.jpg"⟩

/-- Two items with unknown (empty) publish instant. -/
def c2e1 : Definitivo.NItem := ⟨str "E1", str "t1", [], str "S", str "LOCAL", [], str "u1", []⟩

/-- A second item with unknown publish instant. -/
def c2e2 : Definitivo.NItem := ⟨str "E2", str "t2", [], str "S", str "LOCAL", [], str "u2", []⟩

/-- A feed entry with a complete image and date, used to evaluate the emitted
item shape. -/
def c10Entry : RegexVariant.RawEntry :=
  ⟨str "Novo parque inaugurado", str "https://x/c10", [], str "03/12/2025",
   str "http://img/x.png"⟩

/-- Fallback item for `Option.getD` (never used: the entry above is emitted). -/
def c10Fallback : RegexVariant.NormalizedItem := ⟨[], [], [], [], [], [], [], [], [], []⟩

/-- The item the regex-variant collector emits for `c10Entry`. -/
def c10Item : RegexVariant.NormalizedItem :=
  ((RegexVariant.processEntry 2025 (fun _ => ⟨[], [], []⟩) true (str "Fonte") ⟨[], [], []⟩
    c10Entry).1).getD c10Fallback

set_option maxRecDepth 10000

/-! Helper lemmas. -/

theorem http_not_prefix_https (r : Str) :
    (str "http://").isPrefixOf (str "https://" ++ r) = false := rfl

theorem data_not_prefix_https (r : Str) :
    (str "data:").isPrefixOf (str "https://" ++ r) = false := rfl

theorem normalizeImageUrl_clean (u : Str) :
    (str "http://").isPrefixOf (RegexVariant.normalizeImageUrl u) = false ∧
    (str "data:").isPrefixOf (RegexVariant.normalizeImageUrl u) = false := by
  simp only [RegexVariant.normalizeImageUrl]
  split_ifs with h1 h2 h3
  · exact ⟨rfl, rfl⟩
  · exact ⟨rfl, rfl⟩
  · exact ⟨http_not_prefix_https _, data_not_prefix_https _⟩
  · exact ⟨Bool.eq_false_iff.mpr h3, Bool.eq_false_iff.mpr h2⟩

theorem trimEnd_length_le (s : Str) : (trimEnd s).length ≤ s.length := by
  simp only [trimEnd, List.length_reverse]
  calc (s.reverse.dropWhile isWs).length
      ≤ s.reverse.length := (List.dropWhile_sublist _).length_le
    _ = s.length := List.length_reverse s

theorem sourceStep_split (acc : RegexVariant.RunAcc)
    (so : Str × RegexVariant.CollectOutcome) :
    RegexVariant.sourceStep acc so =
      ⟨acc.allItems ++ (RegexVariant.sourceStep ⟨[], [], []⟩ so).allItems,
       acc.perSource ++ (RegexVariant.sourceStep ⟨[], [], []⟩ so).perSource,
       acc.failures ++ (RegexVariant.sourceStep ⟨[], [], []⟩ so).failures⟩ := by
  obtain ⟨name, o⟩ := so
  cases o <;> simp [RegexVariant.sourceStep]

theorem foldl_sourceStep (l : List (Str × RegexVariant.CollectOutcome))
    (acc : RegexVariant.RunAcc) :
    l.foldl RegexVariant.sourceStep acc =
      ⟨acc.allItems ++ (RegexVariant.runSources l).allItems,
       acc.perSource ++ (RegexVariant.runSources l).perSource,
       acc.failures ++ (RegexVariant.runSources l).failures⟩ := by
  induction l generalizing acc with
  | nil => simp [RegexVariant.runSources]
  | cons so l ih =>
    rw [List.foldl_cons, ih (RegexVariant.sourceStep acc so)]
    have h2 : RegexVariant.runSources (so :: l)
        = (so :: l).foldl RegexVariant.sourceStep ⟨[], [], []⟩ := rfl
    rw [h2, List.foldl_cons, ih (RegexVariant.sourceStep ⟨[], [], []⟩ so)]
    rw [sourceStep_split acc so]
    simp [List.append_assoc]

theorem filter_orderedInsert_ne (p : Definitivo.NItem → Bool) (a : Definitivo.NItem)
    (l : List Definitivo.NItem) (ha : p a = false) :
    (List.orderedInsert Definitivo.byDateDesc a l).filter p = l.filter p := by
  rw [List.orderedInsert_eq_take_drop, List.filter_append]
  simp only [List.filter_cons, ha, Bool.false_eq_true, if_false]
  rw [← List.filter_append, List.takeWhile_append_dropWhile]

theorem filter_takeWhile_gt (k : Str) (a : Definitivo.NItem) (l : List Definitivo.NItem)
    (ha : a.publishedAt = k) :
    (l.takeWhile fun b => ¬ Definitivo.byDateDesc a b).filter
      (fun x => x.publishedAt == k) = [] := by
  rw [List.filter_eq_nil_iff]
  intro b hb
  have hb2 := List.mem_takeWhile_imp hb
  simp only [decide_eq_true_eq, Definitivo.byDateDesc] at hb2
  simp only [beq_iff_eq]
  intro hbk
  exact hb2 (le_of_eq (by rw [hbk, ← ha]))

theorem filter_orderedInsert_eq (k : Str) (a : Definitivo.NItem) (l : List Definitivo.NItem)
    (ha : a.publishedAt = k) :
    (List.orderedInsert Definitivo.byDateDesc a l).filter (fun x => x.publishedAt == k)
      = a :: l.filter (fun x => x.publishedAt == k) := by
  rw [List.orderedInsert_eq_take_drop, List.filter_append, filter_takeWhile_gt k a l ha,
    List.nil_append, List.filter_cons]
  rw [if_pos (by simpa using ha)]
  congr 1
  conv_rhs => rw [← List.takeWhile_append_dropWhile
    (p := fun b => decide (¬ Definitivo.byDateDesc a b)) (l := l)]
  rw [List.filter_append, filter_takeWhile_gt k a l ha, List.nil_append]

theorem sortItems_stable (k : Str) (l : List Definitivo.NItem) :
    (Definitivo.sortItems l).filter (fun x => x.publishedAt == k)
      = l.filter (fun x => x.publishedAt == k) := by
  induction l with
  | nil => rfl
  | cons a l ih =>
    show (List.orderedInsert Definitivo.byDateDesc a
      (List.insertionSort Definitivo.byDateDesc l)).filter _ = _
    by_cases ha : a.publishedAt = k
    · rw [filter_orderedInsert_eq k a _ ha, List.filter_cons]
      simp only [ha, beq_self_eq_true, if_pos]
      exact congrArg _ ih
    · rw [filter_orderedInsert_ne _ _ _ (by simp [ha]), List.filter_cons]
      simp only [beq_iff_eq, ha, if_false]
      exact ih

theorem extname_dot (p : Str) :
    Definitivo.extname p = [] ∨ ∃ t, Definitivo.extname p = '.' :: t := by
  simp only [Definitivo.extname]
  split
  · right; exact ⟨_, rfl⟩
  · left; rfl

theorem guessExt_dot (ct : Str) :
    Definitivo.guessExtFromContentType ct = []
      ∨ ∃ t, Definitivo.guessExtFromContentType ct = '.' :: t := by
  simp only [Definitivo.guessExtFromContentType]
  split_ifs <;> first | (left; rfl) | (right; exact ⟨_, rfl⟩)

theorem ext_dot (ct pathn : Str) :
    ∃ t, jsOr (jsOr (Definitivo.guessExtFromContentType ct) (Definitivo.extname pathn))
      (str ".jpg") = '.' :: t := by
  rcases guessExt_dot ct with hg | ⟨t, hg⟩
  · rcases extname_dot pathn with he | ⟨t, he⟩
    · exact ⟨str "jpg", by simp [jsOr, hg, he]; rfl⟩
    · exact ⟨t, by simp [jsOr, hg, he]⟩
  · exact ⟨t, by simp [jsOr, hg]⟩

theorem isPrefixOf_key_dot (key r : Str) (c : Char) :
    (key ++ [c]).isPrefixOf (key ++ c :: r) = true := by
  rw [List.isPrefixOf_iff_prefix]
  exact ⟨r, by simp⟩

/-! Claim theorems. -/

/-- C1 counterexample: in the definitivo variant, two entries with the same
source name and the same final article URL but different titles receive
different ids, so the id is not a function of the (source, URL) pair alone. -/
theorem c1_counterexample :
    Definitivo.stableId (str "Fonte") (str "a") (str "https://x/art")
      ≠ Definitivo.stableId (str "Fonte") (str "b") (str "https://x/art") := by decide

/-- C1 (amended): ids are deterministic in both variants.  In the regex
variant the id is `name:hash(url)` whenever the URL is non-empty — independent
of the title — and `name:hash(title)` when the URL is empty.  In the
definitivo variant the id is `source:sha1(url + "|" + title)`, which also
incorporates the title. -/
theorem c1_id_dependence :
    (∀ name url t t2, url ≠ [] →
        RegexVariant.mkItemId name url t = RegexVariant.mkItemId name url t2) ∧
    (∀ name t, RegexVariant.mkItemId name [] t = name ++ ':' :: RegexVariant.stableId t) ∧
    (∀ source title url,
        Definitivo.stableId source title url = source ++ ':' :: sha1Hex (url ++ '|' :: title)) := by
  refine ⟨fun name url t t2 h => ?_, fun name t => rfl, fun s t u => rfl⟩
  simp only [RegexVariant.mkItemId, jsOr, if_neg h]

/-- C1 witness: the regex-variant id of a fixed (source, URL) pair does not
change when the title changes. -/
theorem c1_id_dependence_witness :
    RegexVariant.mkItemId (str "Fonte") (str "https://x/art") (str "Titulo A")
      = RegexVariant.mkItemId (str "Fonte") (str "https://x/art") (str "Titulo B") :=
  c1_id_dependence.1 _ _ _ _ (by decide)

/-- C2: the items array of the written manifest (the sorted list capped at 80)
is pairwise ordered by publish instant descending under the lexicographic
order on the ISO-8601 strings; the sorted list is a permutation of the input;
any item with empty publish instant is followed only by items with empty
publish instant; and ties are broken by insertion order (the sort is stable:
it preserves the relative order of items sharing a publish instant), so the
result is deterministic for identical inputs. -/
theorem c2_manifest_ordering (l : List Definitivo.NItem) :
    List.Sorted Definitivo.byDateDesc (Definitivo.manifestItems l) ∧
    (Definitivo.sortItems l).Perm l ∧
    (∀ a b, List.Sublist [a, b] (Definitivo.manifestItems l) →
        a.publishedAt = [] → b.publishedAt = []) ∧
    (∀ k, (Definitivo.sortItems l).filter (fun x => x.publishedAt == k)
        = l.filter (fun x => x.publishedAt == k)) := by
  have hs : List.Sorted Definitivo.byDateDesc (Definitivo.sortItems l) :=
    List.sorted_insertionSort Definitivo.byDateDesc l
  have hm : List.Sorted Definitivo.byDateDesc (Definitivo.manifestItems l) :=
    List.Pairwise.sublist (List.take_sublist _ _) hs
  refine ⟨hm, List.perm_insertionSort _ _, ?_, fun k => sortItems_stable k l⟩
  intro a b hab ha
  have hp : List.Pairwise Definitivo.byDateDesc [a, b] := List.Pairwise.sublist hab hm
  have hr : Definitivo.byDateDesc a b := (List.pairwise_cons.mp hp).1 b (by simp)
  simp only [Definitivo.byDateDesc, ha] at hr
  exact le_antisymm hr List.nil_le

/-- C2 witness: on a concrete two-item manifest whose first item has an empty
publish instant, the item after it also has an empty publish instant. -/
theorem c2_manifest_ordering_witness : c2e2.publishedAt = [] :=
  (c2_manifest_ordering [c2e1, c2e2]).2.2.1 c2e1 c2e2 (by decide) rfl

/-- C3 counterexample: when the remote fetch fails, the first call caches
nothing, so a second call with the same URL performs a second network
download — the claimed "at most one network download" bound fails. -/
theorem c3_counterexample :
    ((Definitivo.downloadImage c3FailNet (str "https://x/p.png")
        (Definitivo.downloadImage c3FailNet (str "https://x/p.png") ⟨[], 0⟩).2).2).downloads = 2 ∧
    ¬ ((Definitivo.downloadImage c3FailNet (str "https://x/p.png")
        (Definitivo.downloadImage c3FailNet (str "https://x/p.png") ⟨[], 0⟩).2).2).downloads ≤ 1 := by
  decide

/-- C3 (amended): if a file whose name starts with the hash key of the URL is
already in the cache directory, it is returned immediately with no network
call and no state change; and whenever the first call returns a non-empty
path, a second call with the same URL returns the same path and performs no
further download.  (After a failed first call the second call downloads
again; see the counterexample.) -/
theorem c3_cache_idempotent (net : Str → Definitivo.ImgResponse) (url : Str)
    (st : Definitivo.CacheState) (hurl : url ≠ []) :
    (∀ f, st.files.find? (fun g => (sha1Hex url ++ ['.']).isPrefixOf g) = some f →
        Definitivo.downloadImage net url st = (str "./data/img/" ++ f, st)) ∧
    ((Definitivo.downloadImage net url st).1 ≠ [] →
      Definitivo.downloadImage net url (Definitivo.downloadImage net url st).2
        = Definitivo.downloadImage net url st) := by
  constructor
  · intro f hf
    simp only [Definitivo.downloadImage, if_neg hurl, hf]
  · intro hp
    cases hfind : st.files.find? (fun g => (sha1Hex url ++ ['.']).isPrefixOf g) with
    | some f =>
      have h1 : Definitivo.downloadImage net url st = (str "./data/img/" ++ f, st) := by
        simp only [Definitivo.downloadImage, if_neg hurl, hfind]
      rw [h1]
      exact h1
    | none =>
      by_cases hok : (net url).ok = true
      · by_cases hsize : 1500000 < (net url).size
        · exfalso
          apply hp
          simp only [Definitivo.downloadImage, if_neg hurl, hfind, hok, Bool.not_true,
            if_pos hsize]
          rfl
        · obtain ⟨t, ht⟩ := ext_dot (net url).contentType (net url).finalPathname
          have h1 : Definitivo.downloadImage net url st
              = (str "./data/img/" ++ (sha1Hex url ++ '.' :: t.take 4),
                 ⟨st.files ++ [sha1Hex url ++ '.' :: t.take 4], st.downloads + 1⟩) := by
            simp only [Definitivo.downloadImage, if_neg hurl, hfind, hok, Bool.not_true, ht,
              if_neg hsize, List.take_succ_cons]
            rfl
          have h2 : (⟨st.files ++ [sha1Hex url ++ '.' :: t.take 4],
              st.downloads + 1⟩ : Definitivo.CacheState).files.find?
                (fun g => (sha1Hex url ++ ['.']).isPrefixOf g)
              = some (sha1Hex url ++ '.' :: t.take 4) := by
            rw [List.find?_append, hfind]
            simp [isPrefixOf_key_dot]
          rw [h1]
          simp only [Definitivo.downloadImage, if_neg hurl, h2, h1]
      · exfalso
        apply hp
        simp only [Bool.not_eq_true] at hok
        simp only [Definitivo.downloadImage, if_neg hurl, hfind, hok]
        rfl

/-- C3 witness: a cache hit returns the cached file with no state change, and
after one successful download a repeated call is a no-op returning the same
path. -/
theorem c3_cache_idempotent_witness :
    Definitivo.downloadImage c3OkNet (str "https://x/q.png")
        ⟨[sha1Hex (str "https://x/q.png") ++ str ".png"], 7⟩
      = (str "./data/img/" ++ (sha1Hex (str "https://x/q.png") ++ str ".png"),
         ⟨[sha1Hex (str "https://x/q.png") ++ str ".png"], 7⟩) ∧
    Definitivo.downloadImage c3OkNet (str "https://x/q.png")
        (Definitivo.downloadImage c3OkNet (str "https://x/q.png") ⟨[], 0⟩).2
      = Definitivo.downloadImage c3OkNet (str "https://x/q.png") ⟨[], 0⟩ :=
  ⟨(c3_cache_idempotent c3OkNet (str "https://x/q.png")
      ⟨[sha1Hex (str "https://x/q.png") ++ str ".png"], 7⟩ (by decide)).1
      (sha1Hex (str "https://x/q.png") ++ str ".png") (by decide),
   (c3_cache_idempotent c3OkNet (str "https://x/q.png") ⟨[], 0⟩ (by decide)).2 (by decide)⟩

/-- C4 counterexample: with 81 collected items, the file referenced only by
the 81st item — which is outside the capped 80-item manifest — survives the
sweep, although the claim says any file not referenced by the capped items
array is deleted. -/
theorem c4_counterexample :
    Definitivo.sweep c4All [str "b.jpg"] = [str "b.jpg"] ∧
    str "b.jpg" ∉ Definitivo.usedKeys (Definitivo.manifestItems c4All) := by decide

/-- C4 (amended): the sweep uses the full pre-cap collected list as the
retention set: a file survives exactly when it is referenced by some collected
item (capped or not), and in particular every file referenced by an item of
the capped manifest is kept. -/
theorem c4_sweep_retention (all : List Definitivo.NItem) (files : List Str) :
    (∀ f, f ∈ Definitivo.sweep all files ↔ f ∈ files ∧ f ∈ Definitivo.usedKeys all) ∧
    (∀ f, f ∈ files → f ∈ Definitivo.usedKeys (Definitivo.manifestItems all) →
        f ∈ Definitivo.sweep all files) := by
  constructor
  · intro f
    simp [Definitivo.sweep, List.mem_filter]
  · intro f hf hused
    have hall : f ∈ Definitivo.usedKeys all := by
      simp only [Definitivo.usedKeys, List.mem_filter, List.mem_map] at hused ⊢
      obtain ⟨⟨x, hx, hfx⟩, hne⟩ := hused
      refine ⟨⟨x, ?_, hfx⟩, hne⟩
      have hx2 : x ∈ Definitivo.sortItems all := (List.take_sublist _ _).subset hx
      exact (List.perm_insertionSort _ _).mem_iff.mp hx2
    simp [Definitivo.sweep, List.mem_filter, hf, hall]

/-- C4 witness: a file referenced by the (singleton) capped manifest survives
the sweep. -/
theorem c4_sweep_retention_witness :
    str "x.jpg" ∈ Definitivo.sweep [c4ItemW] [str "x.jpg"] :=
  (c4_sweep_retention [c4ItemW] [str "x.jpg"]).2 (str "x.jpg") (by decide) (by decide)

/-- C5: evaluation of the date normalizers at the claim's inputs.  The regex
variant maps `03/12/2025 09:00` to March 12 (the standard `new Date` parse in
US month/day order runs before the pt-BR day/month branch), not to the
claimed December 3; the other two behaviors hold there: the month-name form
maps to noon UTC on December 3 and out-of-range years are rejected.  The
definitivo variant has neither the pt-BR patterns nor the year clamp. -/
theorem c5_date_normalizer_eval :
    RegexVariant.normalizeDate 2025 (str "03/12/2025 09:00") = str "2025-03-12T09:00:00.000Z" ∧
    RegexVariant.normalizeDate 2025 (str "3 de dezembro de 2025") = str "2025-12-03T12:00:00.000Z" ∧
    RegexVariant.normalizeDate 2025 (str "03/12/1998 09:00") = [] ∧
    RegexVariant.normalizeDate 2025 (str "03/12/2099") = [] ∧
    Definitivo.normalizeDate (str "3 de dezembro de 2025") = [] ∧
    Definitivo.normalizeDate (str "03/12/1998") = str "1998-03-12T00:00:00.000Z" := by
  decide

/-- C6 counterexample: a 220-character stripped summary is not truncated
(it does not exceed 220 characters), yet the definitivo variant emits it with
an appended ellipsis marker — the claimed "ellipsis iff truncated"
equivalence fails. -/
theorem c6_counterexample :
    (Definitivo.mkSummary (List.replicate 220 'a')).length = 221 ∧
    (Definitivo.mkSummary (List.replicate 220 'a')).getLast? = some '…' ∧
    ¬ 220 < (List.replicate 220 'a').length := by decide

/-- C6 (amended): emitted summaries never exceed 221 characters in either
variant; a stripped summary longer than 220 characters is truncated and ends
with an ellipsis; in the regex variant a summary of at most 220 characters is
passed through verbatim (so it ends with an ellipsis only if it already did);
in the definitivo variant the ellipsis is appended whenever the stripped
summary reaches 220 characters, including the untruncated exactly-220 case. -/
theorem c6_summary_bounds (s : Str) :
    (RegexVariant.truncSummary s).length ≤ 221 ∧
    (Definitivo.mkSummary s).length ≤ 221 ∧
    (220 < s.length → (RegexVariant.truncSummary s).getLast? = some '…') ∧
    (¬ 220 < s.length → RegexVariant.truncSummary s = s) ∧
    (220 ≤ s.length → (Definitivo.mkSummary s).getLast? = some '…') := by
  refine ⟨?_, ?_, ?_, ?_, ?_⟩
  · simp only [RegexVariant.truncSummary]
    split_ifs with h
    · have h1 : (trimEnd (s.take 220)).length ≤ 220 :=
        le_trans (trimEnd_length_le _) (by simp)
      rw [List.length_append]
      simp only [List.length_singleton]
      omega
    · omega
  · simp only [Definitivo.mkSummary]
    split_ifs with h1 h2
    · simp
    · rw [List.length_append]
      have := List.length_take_le 220 s
      simp only [List.length_singleton]
      omega
    · have := List.length_take_le 220 s
      simp only [List.append_nil]
      omega
  · intro h
    simp only [RegexVariant.truncSummary, if_pos h]
    exact List.getLast?_concat _
  · intro h
    simp only [RegexVariant.truncSummary, if_neg h]
  · intro h
    have hlen : (s.take 220).length = 220 := by
      rw [List.length_take]; omega
    have hne : s.take 220 ≠ [] := by
      intro hx; rw [hx] at hlen; simp at hlen
    simp only [Definitivo.mkSummary, if_neg hne, hlen, if_pos (le_refl 220)]
    exact List.getLast?_concat _

/-- C6 witness: a 221-character summary is truncated with a trailing ellipsis
in both variants, and a short summary passes through the regex variant
verbatim. -/
theorem c6_summary_bounds_witness :
    (RegexVariant.truncSummary (List.replicate 221 'x')).getLast? = some '…' ∧
    RegexVariant.truncSummary (str "ok") = str "ok" ∧
    (Definitivo.mkSummary (List.replicate 221 'x')).getLast? = some '…' :=
  ⟨(c6_summary_bounds _).2.2.1 (by decide), (c6_summary_bounds _).2.2.2.1 (by decide),
   (c6_summary_bounds _).2.2.2.2 (by decide)⟩

/-- C7: the exclusion half of the claim holds of the staged source — any
entry whose cleaned title and summary, joined by a space and lower-cased,
contain a blocklist keyword as a substring is skipped by the `continue` at
line 352, before article enrichment or the broken `normalizeDate` call are
reached; in particular `Assassinato em praça pública` and the
accented-capital `VIOLÊNCIA EM ALTA` are excluded.  The inclusion half fails
in the staged source: `Prefeitura inaugura praça` passes the filter and then
the reference to `normalizeDate` at line 356 — nested inside isBlocked's
scope by the brace closed only at line 136 — throws a ReferenceError, so the
entry is not included and in fact no entry is ever emitted. -/
theorem c7_blocklist_filter :
    (∀ (name : Str) (e : RegexVariant.RawEntry),
      RegexVariant.isBlocked (RegexVariant.cleanTitle e.title name) e.summary = true →
      RegexVariant.processEntryActual name e = RegexVariant.JsResult.ok (none, false)) ∧
    (RegexVariant.processEntryActual (str "Fonte")
        ⟨str "Assassinato em praça pública", str "https://x/not", [], str "03/12/2025",
          str "https://x/im.png"⟩ = RegexVariant.JsResult.ok (none, false)) ∧
    (RegexVariant.processEntryActual (str "Fonte")
        ⟨str "VIOLÊNCIA EM ALTA", [], [], [], []⟩ = RegexVariant.JsResult.ok (none, false)) ∧
    (RegexVariant.processEntryActual (str "Fonte")
        ⟨str "Prefeitura inaugura praça", str "https://x/ok", [], str "03/12/2025",
          str "https://x/im2.png"⟩
      = RegexVariant.JsResult.thrown (str "ReferenceError: normalizeDate is not defined")) ∧
    (∀ (name : Str) (e : RegexVariant.RawEntry),
      RegexVariant.processEntryActual name e = RegexVariant.JsResult.ok (none, false) ∨
      RegexVariant.processEntryActual name e
        = RegexVariant.JsResult.thrown (str "ReferenceError: normalizeDate is not defined")) := by
  refine ⟨?_, by decide, by decide, by decide, ?_⟩
  · intro name e h
    simp only [RegexVariant.processEntryActual]
    split_ifs with h1 <;> rfl
  · intro name e
    simp only [RegexVariant.processEntryActual]
    split_ifs with h1 h2
    · exact Or.inl rfl
    · exact Or.inl rfl
    · exact Or.inr rfl

/-- C7 witness: a concrete blocked entry (keyword `corpo`) is skipped before
the broken call is reached. -/
theorem c7_blocklist_filter_witness :
    RegexVariant.processEntryActual (str "Fonte")
      ⟨str "Corpo encontrado no rio", [], [], [], []⟩
      = RegexVariant.JsResult.ok (none, false) :=
  c7_blocklist_filter.1 (str "Fonte") _ (by decide)

/-- C8: if collectFromSource fails for a source — either by throwing or by
returning an error value (which always carries an empty item list) — then the
aggregator records exactly one failure entry carrying that source's name and
the error description, the source contributes no items, and the remaining
sources are processed exactly as they would have been. -/
theorem c8_source_failure_isolated (pre post : List (Str × RegexVariant.CollectOutcome))
    (name msg : Str) (o : RegexVariant.CollectOutcome)
    (h : o = RegexVariant.CollectOutcome.thrown msg
      ∨ (o = RegexVariant.CollectOutcome.result [] msg ∧ msg ≠ [])) :
    (RegexVariant.runSources (pre ++ (name, o) :: post)).allItems
        = (RegexVariant.runSources pre).allItems ++ (RegexVariant.runSources post).allItems ∧
    (RegexVariant.runSources (pre ++ (name, o) :: post)).failures
        = (RegexVariant.runSources pre).failures
          ++ (name, msg) :: (RegexVariant.runSources post).failures := by
  have key : RegexVariant.runSources (pre ++ (name, o) :: post)
      = post.foldl RegexVariant.sourceStep
          (RegexVariant.sourceStep (RegexVariant.runSources pre) (name, o)) := by
    simp [RegexVariant.runSources, List.foldl_append]
  rw [key, foldl_sourceStep post
    (RegexVariant.sourceStep (RegexVariant.runSources pre) (name, o))]
  rcases h with h | ⟨h, hmsg⟩ <;> subst h
  · constructor <;> simp [RegexVariant.sourceStep]
  · constructor <;> simp [RegexVariant.sourceStep, hmsg]

/-- C8 witness: in a concrete three-source run whose middle source throws,
the failure list gains exactly that source's entry and the item list is the
concatenation of the other sources' items. -/
theorem c8_source_failure_isolated_witness :
    (RegexVariant.runSources [(str "Fonte A", RegexVariant.CollectOutcome.result [] []),
        (str "Fonte B", RegexVariant.CollectOutcome.thrown (str "fetch failed")),
        (str "Fonte C", RegexVariant.CollectOutcome.result [] [])]).allItems
      = (RegexVariant.runSources [(str "Fonte A", RegexVariant.CollectOutcome.result [] [])]).allItems
        ++ (RegexVariant.runSources [(str "Fonte C", RegexVariant.CollectOutcome.result [] [])]).allItems ∧
    (RegexVariant.runSources [(str "Fonte A", RegexVariant.CollectOutcome.result [] []),
        (str "Fonte B", RegexVariant.CollectOutcome.thrown (str "fetch failed")),
        (str "Fonte C", RegexVariant.CollectOutcome.result [] [])]).failures
      = (RegexVariant.runSources [(str "Fonte A", RegexVariant.CollectOutcome.result [] [])]).failures
        ++ (str "Fonte B", str "fetch failed")
          :: (RegexVariant.runSources [(str "Fonte C", RegexVariant.CollectOutcome.result [] [])]).failures :=
  c8_source_failure_isolated [(str "Fonte A", RegexVariant.CollectOutcome.result [] [])]
    [(str "Fonte C", RegexVariant.CollectOutcome.result [] [])]
    (str "Fonte B") (str "fetch failed")
    (RegexVariant.CollectOutcome.thrown (str "fetch failed")) (Or.inl rfl)

/-- C9: the missing-config branch of the regex variant references `outPath`
before its `const` declaration, so under temporal-dead-zone semantics the
branch throws instead of writing the empty manifest, and the process exits
with status 1, not 0. -/
theorem c9_missing_config_crashes :
    RegexVariant.missingConfigExitCode = 1 ∧
    RegexVariant.missingConfigBranch = RegexVariant.JsResult.thrown
      (str "ReferenceError: Cannot access outPath before initialization") := by
  decide

/-- C10: every item emitted by the regex-variant source collector has an image
field that neither starts with `http://` nor starts with `data:`, because the
assembled item's image passes through normalizeImageUrl. -/
theorem c10_image_normalized (cy : Nat) (enrich : Str → RegexVariant.EnrichResult)
    (allowEnrich : Bool) (name : Str) (src : RegexVariant.SourceCfg)
    (e : RegexVariant.RawEntry) (item : RegexVariant.NormalizedItem) (b : Bool)
    (h : RegexVariant.processEntry cy enrich allowEnrich name src e = (some item, b)) :
    (str "http://").isPrefixOf item.image = false ∧
    (str "data:").isPrefixOf item.image = false := by
  simp only [RegexVariant.processEntry] at h
  split_ifs at h <;>
    (injection h with hA hB
     first
     | (injection hA with hC
        subst hC
        exact normalizeImageUrl_clean _)
     | injection hA)

/-- C10 witness: the item emitted for a concrete entry whose feed image is an
`http://` URL has a rewritten image that no longer starts with `http://`. -/
theorem c10_image_normalized_witness :
    (str "http://").isPrefixOf c10Item.image = false ∧
    (str "data:").isPrefixOf c10Item.image = false :=
  c10_image_normalized 2025 (fun _ => ⟨[], [], []⟩) true (str "Fonte") ⟨[], [], []⟩
    c10Entry c10Item false (by decide)
